/-
Verification of `check_referrals.py`, a batch utility that loads referral
URLs, drives a browser to render each page, classifies the rendered page
as valid / invalid / error / unknown by substring matching, and reports
the results.

Strings from the Python code are embedded as `List Char`.  Python's
`needle in haystack` substring test is embedded as list-infix
(`List.IsInfix`), `str.lower()` as `List.map Char.toLower` (the inputs
the program matches on are ASCII), and `str.strip()` as dropping
whitespace characters from both ends.  The selenium browser session is
embedded as pure data: a navigation either yields the observable facets
of a loaded page (body text, page source, title, the scanned elements)
or fails (timeout / WebDriver error / unexpected error), mirroring the
exception cases the Python code catches.
-/
import Mathlib

namespace CreditChecker

/-- Python strings, embedded as lists of characters. -/
abbrev Text := List Char

/-- Python's substring test `needle in hay` (on `str`). -/
def pyIn (needle hay : Text) : Bool := decide (needle <:+: hay)

/-- Python's `str.lower()`, per character (faithful for ASCII input). -/
def pyLower (s : Text) : Text := s.map Char.toLower

/-- Characters stripped by Python's `str.strip()` (the ASCII whitespace set). -/
def pyIsSpace (c : Char) : Bool :=
  c = ' ' || c = '\t' || c = '\n' || c = '\r' || c = '\x0b' || c = '\x0c'

/-- Python's `str.strip()`: remove whitespace from both ends. -/
def pyStrip (s : Text) : Text :=
  ((s.dropWhile pyIsSpace).reverse.dropWhile pyIsSpace).reverse

/-- `DOLLAR_AMOUNT = 50` (module-level constant, line 19). -/
def DOLLAR_AMOUNT : Nat := 50

/-- The f-string `f"${DOLLAR_AMOUNT}"` used by the primary valid check. -/
def amountToken : Text := ("$" ++ toString DOLLAR_AMOUNT).data

/-- The four statuses `check_referral_status` can return. -/
inductive Status where
  | valid
  | invalid
  | error
  | unknown
deriving DecidableEq, Repr

/-- `is_valid_code(text)` (lines 53-58): text has `"credit"` and
`f"${DOLLAR_AMOUNT}"` as substrings. -/
def is_valid_code (text : Text) : Bool :=
  let has_credit := pyIn "credit".data text
  let has_amount := pyIn amountToken text
  has_credit && has_amount

/-- `invalid_phrases` (lines 63-66). -/
def invalid_phrases : List Text :=
  ["invalid referral code".data, "this referral code is invalid".data]

/-- `is_invalid_code(text)` (lines 61-70): one of the two fixed phrases is a
substring, or `"invalid"`, `"referral"` and `"code"` are all substrings. -/
def is_invalid_code (text : Text) : Bool :=
  invalid_phrases.any (fun phrase => pyIn phrase text) ||
    (pyIn "invalid".data text && pyIn "referral".data text &&
      pyIn "code".data text)

/-- The observable facets of a loaded page, as the selenium calls in
`check_referral_status` and `get_page_text` read them: the body element's
text when the body can be located, the raw page source, the title, and the
texts of the elements matching the scan selector
`"h1, h2, h3, .message, .error, .success, .credit"`, in document order. -/
structure Page where
  bodyText : Option Text
  pageSource : Text
  title : Text
  elements : List Text

/-- `get_page_text(driver)` (lines 44-50): the body text lower-cased, falling
back to the lower-cased page source when the body cannot be located. -/
def get_page_text (page : Page) : Text :=
  match page.bodyText with
  | some t => pyLower t
  | none => pyLower page.pageSource

/-- One outcome of `driver.get(url)` together with reading the page: either
the loaded page, or one of the exceptions the code catches (lines 116-124). -/
inductive NavOutcome where
  | ok (page : Page)
  | timeout
  | webDriverError (msg : Text)
  | unexpectedError (msg : Text)

/-- The body of the element-scan loop (lines 105-110) for a single element:
`invalid referral code` gives invalid, otherwise `credit` together with
`$50` or `$20` gives valid, otherwise no verdict. -/
def element_verdict (element : Text) : Option Status :=
  let text := pyLower element
  if pyIn "invalid referral code".data text then some .invalid
  else if pyIn "credit".data text &&
      (pyIn "$50".data text || pyIn "$20".data text) then some .valid
  else none

/-- The element-scan loop (lines 105-110): first element with a verdict wins,
in document order. -/
def scan_elements : List Text → Option Status
  | [] => none
  | element :: rest =>
    match element_verdict element with
    | some s => some s
    | none => scan_elements rest

/-- `check_referral_status(url, driver)` (lines 73-124): on a successful
navigation, the primary valid text check, then the invalid text check, then
the title fallback, then the element scan, else unknown; every caught
exception gives error. -/
def check_referral_status (nav : NavOutcome) : Status :=
  match nav with
  | .ok page =>
    let page_text := get_page_text page
    if is_valid_code page_text then .valid
    else if is_invalid_code page_text then .invalid
    else if pyIn "invalid".data (pyLower page.title) &&
        pyIn "referral".data (pyLower page.title) then .invalid
    else
      match scan_elements page.elements with
      | some s => s
      | none => .unknown
  | .timeout => .error
  | .webDriverError _ => .error
  | .unexpectedError _ => .error

/-- The console line `check_referral_status` prints for a failed navigation
(lines 117, 120, 123); a successful navigation prints nothing there. -/
def check_referral_log (url : Text) (nav : NavOutcome) : Option Text :=
  match nav with
  | .ok _ => none
  | .timeout => some ("Timeout loading ".data ++ url)
  | .webDriverError msg =>
    some ("WebDriver error for ".data ++ url ++ ": ".data ++ msg)
  | .unexpectedError msg =>
    some ("Unexpected error for ".data ++ url ++ ": ".data ++ msg)

/-! ## URL parsing (`urllib.parse.urlparse` / `parse_qs`)

The loader calls `urlparse(url)` and `parse_qs(parsed.query)` with default
arguments.  These stdlib functions are embedded at the character level:
percent-escapes decode to the character with the escaped code point
(faithful for ASCII input, which is all the program handles). -/

/-- Split at every occurrence of `sep`: Python `s.split(sep)` for a
one-character separator (n separators give n+1 pieces). -/
def splitOnChar (sep : Char) : Text → List Text
  | [] => [[]]
  | c :: rest =>
    if c = sep then [] :: splitOnChar sep rest
    else
      match splitOnChar sep rest with
      | [] => [[c]]
      | piece :: more => (c :: piece) :: more

/-- Split at the first occurrence of `sep`: Python `s.split(sep, 1)`,
`none` when `sep` does not occur. -/
def splitFirst (sep : Char) : Text → Option (Text × Text)
  | [] => none
  | c :: rest =>
    if c = sep then some ([], rest)
    else (splitFirst sep rest).map (fun p => (c :: p.1, p.2))

def isHexDigit (c : Char) : Bool :=
  c.isDigit || ('a' ≤ c && c ≤ 'f') || ('A' ≤ c && c ≤ 'F')

def hexVal (c : Char) : Nat :=
  if c.isDigit then c.toNat - '0'.toNat
  else if 'a' ≤ c then c.toNat - 'a'.toNat + 10
  else c.toNat - 'A'.toNat + 10

/-- Recursion core of `unquote`; the fuel argument only makes the recursion
structural and never runs out when it starts at the input's length. -/
def unquoteAux : Nat → Text → Text
  | _, [] => []
  | 0, l => l
  | fuel + 1, c :: rest =>
    if c = '%' then
      match rest with
      | a :: b :: rest' =>
        if isHexDigit a && isHexDigit b then
          Char.ofNat (16 * hexVal a + hexVal b) :: unquoteAux fuel rest'
        else '%' :: unquoteAux fuel (a :: b :: rest')
      | _ => '%' :: unquoteAux fuel rest
    else c :: unquoteAux fuel rest

/-- `urllib.parse.unquote`: decode `%XY` percent-escapes; an escape not
followed by two hex digits is kept literally.  (Byte-level UTF-8 decoding is
embedded as code-point decoding, faithful for ASCII escapes.) -/
def unquote (s : Text) : Text := unquoteAux s.length s

/-- The `.replace('+', ' ')` step `parse_qsl` applies before unquoting. -/
def plusToSpace (s : Text) : Text := s.map (fun c => if c = '+' then ' ' else c)

def unquote_plus (s : Text) : Text := unquote (plusToSpace s)

/-- `urllib.parse.parse_qsl(qs)` with default arguments: split the query on
`&`; skip empty fields, fields without `=`, and fields whose raw value is
blank (`keep_blank_values` is false); decode name and value. -/
def parse_qsl (qs : Text) : List (Text × Text) :=
  (splitOnChar '&' qs).filterMap fun name_value =>
    if name_value = [] then none
    else
      match splitFirst '=' name_value with
      | none => none
      | some (name, value) =>
        if value = [] then none
        else some (unquote_plus name, unquote_plus value)

/-- Insertion into the dict-of-lists that `parse_qs` builds: append the value
to an existing key's list, else append a fresh singleton entry. -/
def qsInsert (d : List (Text × List Text)) (key : Text) (value : Text) :
    List (Text × List Text) :=
  match d with
  | [] => [(key, [value])]
  | (k, vs) :: rest =>
    if k = key then (k, vs ++ [value]) :: rest
    else (k, vs) :: qsInsert rest key value

/-- `urllib.parse.parse_qs(qs)`: the dict of lists of values per name, in
first-insertion order. -/
def parse_qs (qs : Text) : List (Text × List Text) :=
  (parse_qsl qs).foldl (fun d kv => qsInsert d kv.1 kv.2) []

/-- Python `dict.get` on the `parse_qs` result. -/
def dictGet (d : List (Text × List Text)) (key : Text) : Option (List Text) :=
  (d.find? (fun kv => decide (kv.1 = key))).map (fun kv => kv.2)

/-- Characters `urlsplit` strips from both ends of the URL (the WHATWG
C0-control-or-space set). -/
def urlStripChar (c : Char) : Bool := c ≤ ' '

/-- Tab, CR and LF, which `urlsplit` removes anywhere in the URL. -/
def urlUnsafeChar (c : Char) : Bool := c = '\t' || c = '\r' || c = '\n'

/-- The query component `urlparse(url).query`: after `urlsplit`'s
end-stripping and tab/newline removal, the part after the first `?` that
precedes the first `#` (empty when there is no `?` there). -/
def urlQuery (url : Text) : Text :=
  let cleaned :=
    (((url.dropWhile urlStripChar).reverse.dropWhile urlStripChar).reverse).filter
      (fun c => !urlUnsafeChar c)
  let beforeFragment := cleaned.takeWhile (fun c => !(c = '#'))
  match splitFirst '?' beforeFragment with
  | none => []
  | some (_, query) => query

/-- `extract_code_from_url(url)` (lines 37-41):
`parse_qs(urlparse(url).query).get('code', [None])[0]`. -/
def extract_code_from_url (url : Text) : Option Text :=
  match dictGet (parse_qs (urlQuery url)) "code".data with
  | none => none
  | some vs => vs.head?

/-! ## Input loader (`load_referral_data`) -/

/-- One parsed CSV row as `csv.DictReader` hands it to the loop body:
the `link` and `name` columns, `none` when the column is absent. -/
structure Row where
  link : Option Text
  name : Option Text
deriving DecidableEq, Repr

/-- One loaded referral record (the dict appended on line 148). -/
structure ReferralRecord where
  url : Text
  name : Text
  code : Text
deriving DecidableEq, Repr

/-- The body of the row loop in `load_referral_data` (lines 134-148) for one
row: skip rows with a missing or empty `link`, rows whose stripped link is
empty or does not start with `"http"`, and rows without an extractable code;
otherwise build the record, defaulting a blank `name` to `"Unknown"`. -/
def loadRow (row : Row) : Option ReferralRecord :=
  match row.link with
  | none => none
  | some link =>
    if link = [] then none
    else
      let url := pyStrip link
      if url = [] || !(decide ("http".data <+: url)) then none
      else
        match extract_code_from_url url with
        | none => none
        | some code =>
          if code = [] then none
          else
            let name :=
              match row.name with
              | none => "Unknown".data
              | some n => if pyStrip n = [] then "Unknown".data else pyStrip n
            some { url := url, name := name, code := code }

/-- The warning `load_referral_data` prints for a row whose URL passes the
link checks but yields no code (line 144). -/
def load_row_warning (row : Row) : Option Text :=
  match row.link with
  | none => none
  | some link =>
    if link = [] then none
    else
      let url := pyStrip link
      if url = [] || !(decide ("http".data <+: url)) then none
      else
        match extract_code_from_url url with
        | none => some ("Warning: Could not extract code from ".data ++ url)
        | some _ => none

/-- `load_referral_data` (lines 127-154), restricted to the per-row loop over
the already-parsed CSV rows (a file-level I/O or parse error makes the Python
function return `None` before any row is processed). -/
def load_referral_data (rows : List Row) : List ReferralRecord :=
  rows.filterMap loadRow

/-! ## Runner (`run_validation`) and reporter (`save_results`) -/

/-- A record together with the status attached on line 222
(`{**data, 'status': status}`). -/
structure CheckOutcome where
  record : ReferralRecord
  status : Status
deriving DecidableEq, Repr

/-- The `results` dict of `run_validation` (lines 202-207): the four
partitions, each in processing order. -/
structure RunResults where
  valid : List CheckOutcome
  invalid : List CheckOutcome
  error : List CheckOutcome
  unknown : List CheckOutcome
deriving DecidableEq, Repr

def emptyResults : RunResults := { valid := [], invalid := [], error := [], unknown := [] }

/-- `results[status].append({**data, 'status': status})` (line 222). -/
def addOutcome (res : RunResults) (o : CheckOutcome) : RunResults :=
  match o.status with
  | .valid => { res with valid := res.valid ++ [o] }
  | .invalid => { res with invalid := res.invalid ++ [o] }
  | .error => { res with error := res.error ++ [o] }
  | .unknown => { res with unknown := res.unknown ++ [o] }

/-- `run_validation` (lines 193-237), with the browser session embedded as a
function from a URL to a navigation outcome: load the rows, return early when
nothing was loaded (`if not referral_data: return`), otherwise classify each
record in input order and append it to its status's partition.  (The console
progress lines, the report write and the pacing sleeps do not affect the
returned partitions.) -/
def run_validation (navigate : Text → NavOutcome) (rows : List Row) :
    Option RunResults :=
  let referral_data := load_referral_data rows
  if referral_data = [] then none
  else
    some (referral_data.foldl
      (fun results data =>
        addOutcome results
          { record := data, status := check_referral_status (navigate data.url) })
      emptyResults)

/-- The header banner `save_results` writes first (lines 181-182). -/
def report_banner : Text :=
  "CURSOR REFERRAL CODE ANALYSIS RESULTS (SELENIUM)\n".data ++
    List.replicate 50 '=' ++ "\n\n".data

/-- The total-checked line (line 183). -/
def report_total_line (total : Nat) : Text :=
  ("Total Codes Checked: " ++ toString total ++ "\n\n").data

/-- The valid-code listing (lines 185-190), empty when there are no valid
results (`if valid_codes:`). -/
def report_valid_listing (valid_codes : List CheckOutcome) : Text :=
  if valid_codes = [] then []
  else
    "VALID/UNCLAIMED CODES:\n".data ++ List.replicate 30 '-' ++ "\n".data ++
      valid_codes.flatMap (fun data =>
        "Code: ".data ++ data.record.code ++ "\n".data ++
          "URL: ".data ++ data.record.url ++ "\n\n".data)

/-- The full contents `save_results` writes (lines 178-190). -/
def save_results (valid_codes : List CheckOutcome) (total : Nat) : Text :=
  report_banner ++ report_total_line total ++ report_valid_listing valid_codes

/-- Python `open(path, mode)` + `write`, as a function from the file's
previous contents to its new contents: mode `'w'` truncates, mode `'a'`
appends. -/
inductive FileMode where
  | write
  | append

def writeContents : FileMode → Text → Text → Text
  | .write, _, new => new
  | .append, prev, new => prev ++ new

/-- The report file's contents after a run: `save_results` opens the output
file with mode `'w'` (line 180). -/
def report_file_after_run (prev : Text) (valid_codes : List CheckOutcome)
    (total : Nat) : Text :=
  writeContents .write prev (save_results valid_codes total)

/-! ## Spec-side definitions used by refinement claims -/

/-- Modelled from the claim (C10): `is_invalid_code` with the phrase list
removed, keeping only the final looser conjunction of the three independent
substrings. -/
def is_invalid_code_loose (text : Text) : Bool :=
  pyIn "invalid".data text && pyIn "referral".data text && pyIn "code".data text

/-- Modelled from the spec (C3): the Status Classifier's decision procedure as
§4.3 describes it — primary valid text check, invalid text check, title
fallback, element scan in document order, else unknown; first match wins. -/
def spec_decision_procedure (page : Page) : Status :=
  let text := get_page_text page
  if is_valid_code text then .valid
  else if is_invalid_code text then .invalid
  else if pyIn "invalid".data (pyLower page.title) &&
      pyIn "referral".data (pyLower page.title) then .invalid
  else
    match scan_elements page.elements with
    | some s => s
    | none => .unknown

/-- A navigation outcome that is a failure (one of the caught exceptions). -/
def nav_failed : NavOutcome → Bool
  | .ok _ => false
  | .timeout => true
  | .webDriverError _ => true
  | .unexpectedError _ => true

/-- Modelled from the claim (C5): a trimmed link that "does not start with an
http(s) scheme" — neither `http://` nor `https://` is a prefix of it. -/
def non_http_scheme_link (l : Text) : Bool :=
  !(decide ("http://".data <+: pyStrip l) ||
    decide ("https://".data <+: pyStrip l))

/-- The amended bad-row predicate (C5): the `link` column is missing, empty
after trimming, or does not start with the literal prefix `"http"` — the
check the code actually performs, `url.startswith('http')`, which accepts
both `http://` and `https://` but also any other scheme beginning with
`http` (such as `httpx://`). -/
def bad_link_row (row : Row) : Bool :=
  match row.link with
  | none => true
  | some l => pyStrip l = [] || !(decide ("http".data <+: pyStrip l))

/-- The ordered values a query-pair list carries for one parameter name
(used to characterise `parse_qs`, C6). -/
def keyVals (key : Text) (l : List (Text × Text)) : List Text :=
  l.filterMap (fun kv => if kv.1 = key then some kv.2 else none)

/-- `qsFold d l` is the dict-of-lists built by inserting the pairs of `l`
into `d` in order; `parse_qs qs = qsFold [] (parse_qsl qs)`. -/
def qsFold (d : List (Text × List Text)) (l : List (Text × Text)) :
    List (Text × List Text) :=
  l.foldl (fun d kv => qsInsert d kv.1 kv.2) d

/-- A character that survives `urlsplit`'s cleaning and stays out of the
query/fragment delimiters: printable and neither `?` nor `#` (C6). -/
def urlSafeChar (c : Char) : Bool := decide (' ' < c) && !(c = '?') && !(c = '#')

/-- A character of a code value that query parsing passes through verbatim:
url-safe and none of `&`, `=`, `%`, `+` (C6). -/
def codeSafeChar (c : Char) : Bool :=
  urlSafeChar c && !(c = '&') && !(c = '=') && !(c = '%') && !(c = '+')

/-- All four partitions of a `RunResults`, concatenated (C7). -/
def partsConcat (res : RunResults) : List CheckOutcome :=
  res.valid ++ res.invalid ++ res.error ++ res.unknown

/-- Every outcome sits in the partition named after its status (C7). -/
def statusCoherent (res : RunResults) : Prop :=
  (∀ o ∈ res.valid, o.status = .valid) ∧
  (∀ o ∈ res.invalid, o.status = .invalid) ∧
  (∀ o ∈ res.error, o.status = .error) ∧
  (∀ o ∈ res.unknown, o.status = .unknown)

/-! ## Helper lemmas -/

theorem pyIn_iff {n hay : Text} : pyIn n hay = true ↔ n <:+: hay := by
  simp [pyIn]

theorem pyIn_of_trans {n p text : Text} (hnp : n <:+: p)
    (h : pyIn p text = true) : pyIn n text = true := by
  simp only [pyIn, decide_eq_true_eq] at h ⊢
  exact hnp.trans h

theorem amountToken_eq : amountToken = "$50".data := by decide

theorem element_verdict_some {e : Text} {s : Status}
    (h : element_verdict e = some s) : s = .valid ∨ s = .invalid := by
  simp only [element_verdict] at h
  split_ifs at h <;> simp_all

theorem scan_elements_some {els : List Text} {s : Status}
    (h : scan_elements els = some s) : s = .valid ∨ s = .invalid := by
  induction els with
  | nil => simp [scan_elements] at h
  | cons e rest ih =>
    rw [scan_elements] at h
    cases hv : element_verdict e with
    | none => rw [hv] at h; exact ih h
    | some s' =>
      rw [hv] at h
      have hs : s' = s := by simpa using h
      exact hs ▸ element_verdict_some hv

theorem dictGet_nil (k : Text) : dictGet [] k = none := rfl

theorem dictGet_cons (a : Text) (vs : List Text)
    (rest : List (Text × List Text)) (k : Text) :
    dictGet ((a, vs) :: rest) k = if a = k then some vs else dictGet rest k := by
  by_cases h : a = k <;> simp [dictGet, List.find?_cons, h]

theorem dictGet_qsInsert (d : List (Text × List Text)) (k' v k : Text) :
    dictGet (qsInsert d k' v) k =
      if k = k' then some ((dictGet d k).getD [] ++ [v]) else dictGet d k := by
  induction d with
  | nil =>
    by_cases h : k = k'
    · subst h; simp [qsInsert, dictGet_cons, dictGet_nil]
    · have h' : ¬ k' = k := fun hh => h hh.symm
      simp [qsInsert, dictGet_cons, h, h']
  | cons e rest ih =>
    obtain ⟨a, vs⟩ := e
    by_cases ha : a = k'
    · subst ha
      by_cases hk : k = a
      · subst hk
        simp [qsInsert, dictGet_cons]
      · have hk' : ¬ a = k := fun hh => hk hh.symm
        simp [qsInsert, dictGet_cons, hk, hk']
    · by_cases hk : a = k
      · subst hk
        have hk2 : ¬ a = k' := ha
        simp [qsInsert, dictGet_cons, hk2]
      · simp [qsInsert, dictGet_cons, ha, hk, ih]

theorem dictGet_qsFold_getD (l : List (Text × Text))
    (d : List (Text × List Text)) (k : Text) :
    (dictGet (qsFold d l) k).getD [] = (dictGet d k).getD [] ++ keyVals k l := by
  induction l generalizing d with
  | nil => simp [qsFold, keyVals]
  | cons kv l ih =>
    obtain ⟨k₁, v₁⟩ := kv
    show (dictGet (qsFold (qsInsert d k₁ v₁) l) k).getD [] = _
    rw [ih, dictGet_qsInsert]
    simp only [keyVals, List.filterMap_cons]
    by_cases h : k₁ = k
    · subst h
      rw [if_pos rfl]
      simp [keyVals]
    · rw [if_neg (fun hh => h hh.symm)]
      simp [keyVals, h]

theorem dictGet_qsFold_eq_none (l : List (Text × Text))
    (d : List (Text × List Text)) (k : Text) :
    dictGet (qsFold d l) k = none ↔
      dictGet d k = none ∧ keyVals k l = [] := by
  induction l generalizing d with
  | nil => simp [qsFold, keyVals]
  | cons kv l ih =>
    obtain ⟨k₁, v₁⟩ := kv
    show dictGet (qsFold (qsInsert d k₁ v₁) l) k = none ↔ _
    rw [ih, dictGet_qsInsert]
    simp only [keyVals, List.filterMap_cons]
    by_cases h : k₁ = k
    · subst h
      rw [if_pos rfl]
      simp [keyVals]
    · rw [if_neg (fun hh => h hh.symm)]
      simp [keyVals, h]

theorem keyVals_head? (k : Text) (l : List (Text × Text)) :
    (keyVals k l).head? =
      (l.find? (fun kv => decide (kv.1 = k))).map Prod.snd := by
  induction l with
  | nil => rfl
  | cons kv l ih =>
    obtain ⟨k₁, v₁⟩ := kv
    by_cases h : k₁ = k
    · subst h
      simp [keyVals, List.filterMap_cons, List.find?_cons]
    · simp only [keyVals, List.filterMap_cons, List.find?_cons] at ih ⊢
      simp [h, ih]

theorem extract_code_eq_keyVals_head (url : Text) :
    extract_code_from_url url =
      (keyVals "code".data (parse_qsl (urlQuery url))).head? := by
  unfold extract_code_from_url
  have hfold : parse_qs (urlQuery url) = qsFold [] (parse_qsl (urlQuery url)) := rfl
  cases h : dictGet (parse_qs (urlQuery url)) "code".data with
  | none =>
    rw [hfold] at h
    have hkv := ((dictGet_qsFold_eq_none _ _ _).mp h).2
    rw [hkv]
    rfl
  | some vs =>
    have hvs : vs = keyVals "code".data (parse_qsl (urlQuery url)) := by
      have hg := dictGet_qsFold_getD (parse_qsl (urlQuery url)) [] "code".data
      rw [← hfold, h] at hg
      simpa using hg
    rw [hvs]

theorem extract_code_eq_find (url : Text) :
    extract_code_from_url url =
      ((parse_qsl (urlQuery url)).find?
        (fun kv => decide (kv.1 = "code".data))).map Prod.snd := by
  rw [extract_code_eq_keyVals_head, keyVals_head?]

theorem dropWhile_eq_self_of_none {p : Char → Bool} {l : Text}
    (h : ∀ c ∈ l, p c = false) : l.dropWhile p = l := by
  cases l with
  | nil => rfl
  | cons c rest => simp [List.dropWhile_cons, h c (List.mem_cons_self c rest)]

theorem takeWhile_eq_self_of_all {p : Char → Bool} {l : Text}
    (h : ∀ c ∈ l, p c = true) : l.takeWhile p = l := by
  induction l with
  | nil => rfl
  | cons c rest ih =>
    rw [List.takeWhile_cons, h c (List.mem_cons_self c rest)]
    simp [ih (fun x hx => h x (List.mem_cons_of_mem c hx))]

theorem splitOnChar_of_no_sep {sep : Char} {l : Text}
    (h : ∀ c ∈ l, c ≠ sep) : splitOnChar sep l = [l] := by
  induction l with
  | nil => rfl
  | cons c rest ih =>
    rw [splitOnChar, if_neg (h c (List.mem_cons_self c rest)),
      ih (fun x hx => h x (List.mem_cons_of_mem c hx))]

theorem splitFirst_append {sep : Char} {pre post : Text}
    (h : ∀ c ∈ pre, c ≠ sep) :
    splitFirst sep (pre ++ sep :: post) = some (pre, post) := by
  induction pre with
  | nil => simp [splitFirst]
  | cons c rest ih =>
    rw [List.cons_append, splitFirst, if_neg (h c (List.mem_cons_self c rest)),
      ih (fun x hx => h x (List.mem_cons_of_mem c hx))]
    rfl

theorem unquoteAux_eq_self_of_no_percent :
    ∀ (fuel : Nat) (l : Text), (∀ c ∈ l, c ≠ '%') → unquoteAux fuel l = l := by
  intro fuel
  induction fuel with
  | zero => intro l _; cases l <;> rfl
  | succ fuel ih =>
    intro l h
    cases l with
    | nil => rfl
    | cons c rest =>
      have hc : ¬ c = '%' := h c (List.mem_cons_self c rest)
      have hrest := ih rest (fun x hx => h x (List.mem_cons_of_mem c hx))
      simp [unquoteAux, hc, hrest]

theorem unquote_eq_self_of_no_percent {l : Text}
    (h : ∀ c ∈ l, c ≠ '%') : unquote l = l :=
  unquoteAux_eq_self_of_no_percent l.length l h

theorem plusToSpace_eq_self_of_no_plus {l : Text}
    (h : ∀ c ∈ l, c ≠ '+') : plusToSpace l = l := by
  induction l with
  | nil => rfl
  | cons c rest ih =>
    simp only [plusToSpace, List.map_cons,
      if_neg (h c (List.mem_cons_self c rest))]
    rw [show List.map (fun c => if c = '+' then ' ' else c) rest = plusToSpace rest from rfl,
      ih (fun x hx => h x (List.mem_cons_of_mem c hx))]

theorem unquote_plus_eq_self {l : Text}
    (hplus : ∀ c ∈ l, c ≠ '+') (hperc : ∀ c ∈ l, c ≠ '%') :
    unquote_plus l = l := by
  rw [unquote_plus, plusToSpace_eq_self_of_no_plus hplus,
    unquote_eq_self_of_no_percent hperc]

theorem urlSafeChar_props {c : Char} (h : urlSafeChar c = true) :
    urlStripChar c = false ∧ urlUnsafeChar c = false ∧ c ≠ '?' ∧ c ≠ '#' := by
  simp only [urlSafeChar, Bool.and_eq_true, decide_eq_true_eq,
    Bool.not_eq_true', decide_eq_false_iff_not] at h
  obtain ⟨⟨hlt, hq⟩, hh⟩ := h
  refine ⟨?_, ?_, hq, hh⟩
  · simp only [urlStripChar, decide_eq_false_iff_not]
    exact not_le.mpr hlt
  · simp only [urlUnsafeChar, Bool.or_eq_false_iff, decide_eq_false_iff_not]
    refine ⟨⟨?_, ?_⟩, ?_⟩ <;> rintro rfl <;> revert hlt <;> decide

theorem codeSafeChar_props {c : Char} (h : codeSafeChar c = true) :
    urlSafeChar c = true ∧ c ≠ '&' ∧ c ≠ '=' ∧ c ≠ '%' ∧ c ≠ '+' := by
  simp only [codeSafeChar, Bool.and_eq_true, Bool.not_eq_true',
    decide_eq_false_iff_not] at h
  exact ⟨h.1.1.1.1, h.1.1.1.2, h.1.1.2, h.1.2, h.2⟩

theorem urlQuery_of_simple (base X : Text)
    (hbase : ∀ c ∈ base, urlSafeChar c = true)
    (hX : ∀ c ∈ X, codeSafeChar c = true) :
    urlQuery (base ++ "?code=".data ++ X) = "code=".data ++ X := by
  have hsafe : ∀ c ∈ base ++ "?code=".data ++ X, urlSafeChar c = true ∨
      c ∈ "?code=".data := by
    intro c hc
    rcases List.mem_append.mp hc with hc' | hcX
    · rcases List.mem_append.mp hc' with hcb | hcq
      · exact Or.inl (hbase c hcb)
      · exact Or.inr hcq
    · exact Or.inl (codeSafeChar_props (hX c hcX)).1
  have hstrip : ∀ c ∈ base ++ "?code=".data ++ X, urlStripChar c = false := by
    intro c hc
    rcases hsafe c hc with h | h
    · exact (urlSafeChar_props h).1
    · fin_cases h <;> decide
  have hremoved : ∀ c ∈ base ++ "?code=".data ++ X, urlUnsafeChar c = false := by
    intro c hc
    rcases hsafe c hc with h | h
    · exact (urlSafeChar_props h).2.1
    · fin_cases h <;> decide
  have hhash : ∀ c ∈ base ++ "?code=".data ++ X, c ≠ '#' := by
    intro c hc
    rcases hsafe c hc with h | h
    · exact (urlSafeChar_props h).2.2.2
    · fin_cases h <;> decide
  rw [urlQuery]
  have h1 : (base ++ "?code=".data ++ X).dropWhile urlStripChar =
      base ++ "?code=".data ++ X := dropWhile_eq_self_of_none hstrip
  rw [h1]
  have h2 : (base ++ "?code=".data ++ X).reverse.dropWhile urlStripChar =
      (base ++ "?code=".data ++ X).reverse :=
    dropWhile_eq_self_of_none (fun c hc => hstrip c (List.mem_reverse.mp hc))
  rw [h2, List.reverse_reverse]
  have h3 : (base ++ "?code=".data ++ X).filter (fun c => !urlUnsafeChar c) =
      base ++ "?code=".data ++ X := by
    apply List.filter_eq_self.mpr
    intro c hc
    rw [hremoved c hc]
    rfl
  rw [h3]
  have h4 : (base ++ "?code=".data ++ X).takeWhile (fun c => !(c = '#')) =
      base ++ "?code=".data ++ X := by
    apply takeWhile_eq_self_of_all
    intro c hc
    simpa using hhash c hc
  rw [h4]
  have h5 : base ++ "?code=".data ++ X = base ++ '?' :: ("code=".data ++ X) := by
    simp [List.append_assoc]
  rw [h5, splitFirst_append
    (fun c hc => (urlSafeChar_props (hbase c hc)).2.2.1)]

theorem parse_qsl_single_code (X : Text)
    (hX : ∀ c ∈ X, codeSafeChar c = true) (hne : X ≠ []) :
    parse_qsl ("code=".data ++ X) = [("code".data, X)] := by
  have hnoamp : ∀ c ∈ "code=".data ++ X, c ≠ '&' := by
    intro c hc
    rcases List.mem_append.mp hc with h | h
    · fin_cases h <;> decide
    · exact (codeSafeChar_props (hX c h)).2.1
  rw [parse_qsl, splitOnChar_of_no_sep hnoamp]
  have hne' : ¬ ("code=".data ++ X = ([] : Text)) := by simp
  have hsplit : splitFirst '=' ("code=".data ++ X) = some ("code".data, X) := by
    have : "code=".data ++ X = "code".data ++ '=' :: X := rfl
    rw [this]
    exact splitFirst_append (by decide)
  simp only [List.filterMap_cons, List.filterMap_nil, if_neg hne', hsplit,
    if_neg hne]
  rw [unquote_plus_eq_self (by decide) (by decide),
    unquote_plus_eq_self (fun c hc => (codeSafeChar_props (hX c hc)).2.2.2.2)
      (fun c hc => (codeSafeChar_props (hX c hc)).2.2.2.1)]

theorem append_singleton_perm (xs ys : List CheckOutcome) (o : CheckOutcome) :
    ((xs ++ [o]) ++ ys).Perm ((xs ++ ys) ++ [o]) := by
  rw [List.append_assoc, List.append_assoc]
  exact List.Perm.append_left xs List.perm_append_comm

theorem partsConcat_addOutcome (res : RunResults) (o : CheckOutcome) :
    (partsConcat (addOutcome res o)).Perm (partsConcat res ++ [o]) := by
  obtain ⟨v, i, e, u⟩ := res
  cases ho : o.status with
  | valid =>
    simp only [addOutcome, ho, partsConcat, List.append_assoc]
    refine List.Perm.append_left v ?_
    have he : i ++ (e ++ (u ++ [o])) = (i ++ (e ++ u)) ++ [o] := by
      simp [List.append_assoc]
    rw [he]
    exact List.perm_append_comm
  | invalid =>
    simp only [addOutcome, ho, partsConcat, List.append_assoc]
    refine List.Perm.append_left v (List.Perm.append_left i ?_)
    have he : e ++ (u ++ [o]) = (e ++ u) ++ [o] := by
      simp [List.append_assoc]
    rw [he]
    exact List.perm_append_comm
  | error =>
    simp only [addOutcome, ho, partsConcat, List.append_assoc]
    exact List.Perm.append_left v (List.Perm.append_left i
      (List.Perm.append_left e List.perm_append_comm))
  | unknown =>
    simp only [addOutcome, ho, partsConcat, List.append_assoc]
    exact List.Perm.refl _

theorem partsConcat_foldl (navigate : Text → NavOutcome) (l : List ReferralRecord) :
    ∀ res : RunResults,
      (partsConcat (l.foldl (fun results data => addOutcome results
          { record := data, status := check_referral_status (navigate data.url) })
        res)).Perm
      (partsConcat res ++ l.map (fun d =>
        ({ record := d,
           status := check_referral_status (navigate d.url) } : CheckOutcome))) := by
  induction l with
  | nil => intro res; simp
  | cons d l ih =>
    intro res
    simp only [List.foldl_cons, List.map_cons]
    refine (ih _).trans ?_
    refine (List.Perm.append_right _ (partsConcat_addOutcome res _)).trans ?_
    rw [List.append_assoc]
    rfl

theorem statusCoherent_addOutcome {res : RunResults} (h : statusCoherent res)
    (o : CheckOutcome) : statusCoherent (addOutcome res o) := by
  obtain ⟨h1, h2, h3, h4⟩ := h
  cases ho : o.status with
  | valid =>
    simp only [statusCoherent, addOutcome, ho]
    refine ⟨fun x hx => ?_, h2, h3, h4⟩
    rcases List.mem_append.mp hx with hxm | hxo
    · exact h1 x hxm
    · rw [List.mem_singleton.mp hxo]; exact ho
  | invalid =>
    simp only [statusCoherent, addOutcome, ho]
    refine ⟨h1, fun x hx => ?_, h3, h4⟩
    rcases List.mem_append.mp hx with hxm | hxo
    · exact h2 x hxm
    · rw [List.mem_singleton.mp hxo]; exact ho
  | error =>
    simp only [statusCoherent, addOutcome, ho]
    refine ⟨h1, h2, fun x hx => ?_, h4⟩
    rcases List.mem_append.mp hx with hxm | hxo
    · exact h3 x hxm
    · rw [List.mem_singleton.mp hxo]; exact ho
  | unknown =>
    simp only [statusCoherent, addOutcome, ho]
    refine ⟨h1, h2, h3, fun x hx => ?_⟩
    rcases List.mem_append.mp hx with hxm | hxo
    · exact h4 x hxm
    · rw [List.mem_singleton.mp hxo]; exact ho

theorem statusCoherent_foldl (navigate : Text → NavOutcome)
    (l : List ReferralRecord) :
    ∀ res : RunResults, statusCoherent res →
      statusCoherent (l.foldl (fun results data => addOutcome results
        { record := data, status := check_referral_status (navigate data.url) })
        res) := by
  induction l with
  | nil => intro res h; exact h
  | cons d l ih =>
    intro res h
    exact ih _ (statusCoherent_addOutcome h _)

/-! ## Claims -/

/-- C1: for every rendered page text, the primary valid check of the Status
Classifier returns valid exactly when the text contains both the substring
"credit" and the literal token "$50"; a text containing "credit" but not
"$50" is never classified valid by this primary check. -/
theorem c1_primary_valid_check (text : Text) :
    (is_valid_code text = true ↔
      ("credit".data <:+: text ∧ "$50".data <:+: text)) ∧
    ("credit".data <:+: text → ¬ "$50".data <:+: text →
      is_valid_code text = false) := by
  constructor
  · simp [is_valid_code, pyIn, amountToken_eq]
  · intro hc h50
    simp [is_valid_code, pyIn, amountToken_eq, h50]

/-- Witness for C1: a concrete text containing "credit" but not "$50" is not
accepted by the primary valid check. -/
theorem c1_primary_valid_check_witness :
    is_valid_code "unrelated mention of credit".data = false :=
  (c1_primary_valid_check "unrelated mention of credit".data).2
    (by decide) (by decide)

/-- C10: the invalid-text check is equivalent to its final looser condition
alone — `is_invalid_code` returns true exactly when the text contains
"invalid", "referral" and "code" as substrings, so removing the phrase list
changes the function's value on no input. -/
theorem c10_invalid_check_loose_equiv (text : Text) :
    is_invalid_code text = is_invalid_code_loose text := by
  simp only [is_invalid_code, is_invalid_code_loose, invalid_phrases,
    List.any_cons, List.any_nil, Bool.or_false]
  cases hp1 : pyIn "invalid referral code".data text with
  | true =>
    have hi := pyIn_of_trans
      (by decide : "invalid".data <:+: "invalid referral code".data) hp1
    have hr := pyIn_of_trans
      (by decide : "referral".data <:+: "invalid referral code".data) hp1
    have hc := pyIn_of_trans
      (by decide : "code".data <:+: "invalid referral code".data) hp1
    simp [hi, hr, hc]
  | false =>
    cases hp2 : pyIn "this referral code is invalid".data text with
    | true =>
      have hi := pyIn_of_trans
        (by decide : "invalid".data <:+: "this referral code is invalid".data) hp2
      have hr := pyIn_of_trans
        (by decide : "referral".data <:+: "this referral code is invalid".data) hp2
      have hc := pyIn_of_trans
        (by decide : "code".data <:+: "this referral code is invalid".data) hp2
      simp [hi, hr, hc]
    | false => simp

/-- C2 counterexample: a page whose rendered text contains the phrase
"invalid referral code" but also matches the primary valid check; the Status
Classifier returns valid, not invalid, so containing the phrase does not
guarantee an invalid classification. -/
theorem c2_counterexample :
    "invalid referral code".data <:+:
      get_page_text
        { bodyText := some "You both get $50 in credit. Invalid referral code.".data,
          pageSource := [], title := [], elements := [] } ∧
    check_referral_status
      (.ok { bodyText := some "You both get $50 in credit. Invalid referral code.".data,
             pageSource := [], title := [], elements := [] }) = .valid := by
  constructor
  · decide
  · decide

/-- C2 (amended): for every classification input whose rendered text contains
"invalid referral code" in any letter case, the Status Classifier returns
invalid, provided the primary valid check does not match the rendered text
(which is evaluated first and would otherwise win). -/
theorem c2_amended_invalid_phrase (page : Page) (t v : Text)
    (ht : get_page_text page = pyLower t)
    (hv : v <:+: t)
    (hcase : pyLower v = "invalid referral code".data)
    (hnotvalid : is_valid_code (get_page_text page) = false) :
    check_referral_status (.ok page) = .invalid := by
  have hphrase : pyIn "invalid referral code".data (get_page_text page) = true := by
    rw [ht, ← hcase]
    simp only [pyIn, pyLower, decide_eq_true_eq]
    exact hv.map Char.toLower
  have hinv : is_invalid_code (get_page_text page) = true := by
    simp [is_invalid_code, invalid_phrases, hphrase]
  simp [check_referral_status, hnotvalid, hinv]

/-- Witness for C2 (amended): a page whose body text is "Invalid Referral
Code" (mixed case) is classified invalid. -/
theorem c2_amended_invalid_phrase_witness :
    check_referral_status
      (.ok { bodyText := some "Invalid Referral Code".data,
             pageSource := [], title := [], elements := [] }) = .invalid :=
  c2_amended_invalid_phrase
    { bodyText := some "Invalid Referral Code".data,
      pageSource := [], title := [], elements := [] }
    "Invalid Referral Code".data "Invalid Referral Code".data
    (by decide) (by decide) (by decide) (by decide)

/-- C3: the Status Classifier evaluates its checks in the fixed first-match
order the specification describes (primary valid text check, invalid text
check, title fallback, element scan in document order), and returns unknown
exactly when no check matched. -/
theorem c3_fixed_order_decision (page : Page) :
    check_referral_status (.ok page) = spec_decision_procedure page ∧
    (check_referral_status (.ok page) = .unknown ↔
      (is_valid_code (get_page_text page) = false ∧
       is_invalid_code (get_page_text page) = false ∧
       (pyIn "invalid".data (pyLower page.title) &&
         pyIn "referral".data (pyLower page.title)) = false ∧
       scan_elements page.elements = none)) := by
  refine ⟨rfl, ?_⟩
  show spec_decision_procedure page = .unknown ↔ _
  simp only [spec_decision_procedure]
  split_ifs with h1 h2 h3
  · simp_all
  · simp_all
  · simp_all
  · cases hscan : scan_elements page.elements with
    | none => simp_all
    | some s =>
      rcases scan_elements_some hscan with hs | hs <;> subst hs <;> simp_all

/-- C4 counterexample: a scanned element whose text contains both "credit"
and "$20" but also "invalid referral code" is classified invalid by the
element scan, not valid. -/
theorem c4_counterexample :
    pyIn "credit".data
      (pyLower "Invalid referral code - your $20 credit is gone".data) = true ∧
    pyIn "$20".data
      (pyLower "Invalid referral code - your $20 credit is gone".data) = true ∧
    scan_elements ["Invalid referral code - your $20 credit is gone".data] =
      some .invalid ∧
    check_referral_status
      (.ok { bodyText := some [], pageSource := [], title := [],
             elements := ["Invalid referral code - your $20 credit is gone".data] })
      = .invalid := by
  refine ⟨by decide, by decide, by decide, by decide⟩

/-- C4 (amended): the token "$20" leads to a valid classification only
through the element-scan fallback — for every text containing "credit" and
"$20" but not "$50" the primary check does not return valid, while a scanned
element containing "credit" and "$20" is classified valid provided it does
not also contain "invalid referral code" (checked first within the element)
and no earlier element already matched. -/
theorem c4_amended_twenty_only_in_scan :
    (∀ text : Text, pyIn "credit".data text = true → pyIn "$20".data text = true →
      pyIn "$50".data text = false → is_valid_code text = false) ∧
    (∀ (pre : List Text) (e : Text) (post : List Text),
      (∀ e' ∈ pre, element_verdict e' = none) →
      pyIn "credit".data (pyLower e) = true →
      pyIn "$20".data (pyLower e) = true →
      pyIn "invalid referral code".data (pyLower e) = false →
      scan_elements (pre ++ e :: post) = some .valid) := by
  constructor
  · intro text _ _ h50
    simp [is_valid_code, pyIn, amountToken_eq] at h50 ⊢
    intro _
    exact h50
  · intro pre e post hpre hcredit h20 hinv
    have hverdict : element_verdict e = some .valid := by
      unfold element_verdict
      simp [hinv, hcredit, h20]
    induction pre with
    | nil => rw [List.nil_append, scan_elements, hverdict]
    | cons e' rest ih =>
      have h' : element_verdict e' = none := hpre e' (List.mem_cons_self e' rest)
      rw [List.cons_append, scan_elements, h']
      exact ih (fun x hx => hpre x (List.mem_cons_of_mem e' hx))

/-- Witness for C4 (amended): "get $20 credit" fails the primary check but is
accepted by the element scan. -/
theorem c4_amended_twenty_only_in_scan_witness :
    is_valid_code "get $20 credit".data = false ∧
    scan_elements ["get $20 credit".data] = some .valid :=
  ⟨c4_amended_twenty_only_in_scan.1 "get $20 credit".data
      (by decide) (by decide) (by decide),
   c4_amended_twenty_only_in_scan.2 [] "get $20 credit".data []
      (by simp) (by decide) (by decide) (by decide)⟩

/-- C8: the error status arises exactly on navigation failure — on a caught
navigation exception the record is classified error and a specific console
line is logged, while a successful navigation is classified valid, invalid or
unknown (never error) and logs nothing there. -/
theorem c8_error_exactly_on_navigation_failure (url : Text) :
    (∀ page : Page,
      (check_referral_status (.ok page) = .valid ∨
       check_referral_status (.ok page) = .invalid ∨
       check_referral_status (.ok page) = .unknown) ∧
      check_referral_log url (.ok page) = none) ∧
    (∀ nav : NavOutcome, nav_failed nav = true →
      check_referral_status nav = .error ∧
        (check_referral_log url nav).isSome = true) ∧
    (∀ nav : NavOutcome, check_referral_status nav = .error →
      nav_failed nav = true) := by
  have hok : ∀ page : Page,
      check_referral_status (.ok page) = .valid ∨
      check_referral_status (.ok page) = .invalid ∨
      check_referral_status (.ok page) = .unknown := by
    intro page
    simp only [check_referral_status]
    split_ifs with h1 h2 h3
    · simp
    · simp
    · simp
    · cases hscan : scan_elements page.elements with
      | none => simp
      | some s => rcases scan_elements_some hscan with hs | hs <;> subst hs <;> simp
  refine ⟨fun page => ⟨hok page, rfl⟩, fun nav h => ?_, fun nav h => ?_⟩
  · cases nav with
    | ok page => simp [nav_failed] at h
    | timeout => exact ⟨rfl, rfl⟩
    | webDriverError msg => exact ⟨rfl, rfl⟩
    | unexpectedError msg => exact ⟨rfl, rfl⟩
  · cases nav with
    | ok page => rcases hok page with hs | hs | hs <;> rw [h] at hs <;> simp_all
    | timeout => rfl
    | webDriverError msg => rfl
    | unexpectedError msg => rfl

/-- Witness for C8: a timeout is a navigation failure, is classified error,
and produces a console log line. -/
theorem c8_error_exactly_on_navigation_failure_witness :
    (check_referral_status .timeout = .error ∧
      (check_referral_log "http://u".data .timeout).isSome = true) ∧
    nav_failed .timeout = true :=
  ⟨(c8_error_exactly_on_navigation_failure "http://u".data).2.1 .timeout rfl,
   (c8_error_exactly_on_navigation_failure "http://u".data).2.2 .timeout rfl⟩

theorem loadRow_none_of_bad {row : Row} (hbad : bad_link_row row = true) :
    loadRow row = none := by
  simp only [bad_link_row] at hbad
  simp only [loadRow]
  cases hl : row.link with
  | none => rfl
  | some l =>
    rw [hl] at hbad
    by_cases he : l = []
    · simp [he]
    · have hstrip : pyStrip l = [] ∨ ¬ "http".data <+: pyStrip l := by
        simpa using hbad
      rcases hstrip with hs | hs <;> simp [he, hs]

/-- C5 counterexample: the link `httpx://c.com/?code=A` does not start with
an http(s) scheme (its scheme is `httpx`), yet the Loader keeps the row —
`url.startswith('http')` passes and a code is extracted — so the output
sequence is as long as the raw row list, not strictly shorter. -/
theorem c5_counterexample :
    non_http_scheme_link "httpx://c.com/?code=A".data = true ∧
    loadRow { link := some "httpx://c.com/?code=A".data, name := none } =
      some { url := "httpx://c.com/?code=A".data, name := "Unknown".data,
             code := "A".data } ∧
    (load_referral_data
        [{ link := some "httpx://c.com/?code=A".data, name := none }]).length =
      ([{ link := some "httpx://c.com/?code=A".data,
          name := none }] : List Row).length := by
  refine ⟨by decide, by decide, by decide⟩

/-- C5 (amended): every input row whose link is missing, empty after
trimming, or not starting with the literal prefix `"http"` (the code's
`startswith('http')` check, which accepts any scheme beginning with `http`)
is excluded by the Loader, and whenever such a row exists the output
sequence is strictly shorter than the raw row list. -/
theorem c5_loader_excludes_bad_links :
    (∀ row : Row, bad_link_row row = true → loadRow row = none) ∧
    (∀ rows : List Row, (∃ row ∈ rows, bad_link_row row = true) →
      (load_referral_data rows).length < rows.length) := by
  refine ⟨fun row hbad => loadRow_none_of_bad hbad, fun rows h => ?_⟩
  induction rows with
  | nil => simp at h
  | cons r rest ih =>
    rcases h with ⟨row, hmem, hbad⟩
    rcases List.mem_cons.mp hmem with hr | hr
    · subst hr
      rw [load_referral_data, List.filterMap_cons, loadRow_none_of_bad hbad]
      exact Nat.lt_succ_of_le (List.length_filterMap_le loadRow rest)
    · have hlt : (load_referral_data rest).length < rest.length :=
        ih ⟨row, hr, hbad⟩
      rw [load_referral_data, List.filterMap_cons]
      cases loadRow r with
      | none => exact Nat.lt_succ_of_lt hlt
      | some rec' => exact Nat.succ_lt_succ hlt

/-- Witness for C5: a two-row list with one `ftp://` link loads exactly one
record, strictly fewer than the raw row count. -/
theorem c5_loader_excludes_bad_links_witness :
    loadRow { link := some "ftp://c.com/?code=Q".data, name := none } = none ∧
    (load_referral_data
      [{ link := some "ftp://c.com/?code=Q".data, name := none },
       { link := some "https://c.com/r?code=AB".data, name := none }]).length < 2 :=
  ⟨c5_loader_excludes_bad_links.1
      { link := some "ftp://c.com/?code=Q".data, name := none } (by decide),
   c5_loader_excludes_bad_links.2
      [{ link := some "ftp://c.com/?code=Q".data, name := none },
       { link := some "https://c.com/r?code=AB".data, name := none }]
      ⟨{ link := some "ftp://c.com/?code=Q".data, name := none },
        by simp, by decide⟩⟩

/-- C6 counterexample: the URL `https://x.com/?code=AAA&code=BBB` carries a
`code=BBB` query parameter, yet `extract_code_from_url` returns `AAA` (the
first code parameter), so "returns exactly X for every URL carrying a code=X
parameter" fails. -/
theorem c6_counterexample :
    "code=BBB".data <:+: "https://x.com/?code=AAA&code=BBB".data ∧
    extract_code_from_url "https://x.com/?code=AAA&code=BBB".data =
      some "AAA".data ∧
    some "AAA".data ≠ some "BBB".data := by
  refine ⟨by decide, by decide, by decide⟩

/-- C6 (amended): `extract_code_from_url` returns the value of the first
`code` query parameter kept by `parse_qs` (query parsing drops parameters
with a blank value); in particular for every URL of the shape
`base?code=X` — `base` free of `?`/`#`, `X` non-empty and free of query
metacharacters and escapes — it returns exactly `X`; and for every row whose
stripped link passes the link checks but yields no code, the Loader emits no
record and prints a warning. -/
theorem c6_amended_first_code_param :
    (∀ url : Text, extract_code_from_url url =
      ((parse_qsl (urlQuery url)).find?
        (fun kv => decide (kv.1 = "code".data))).map Prod.snd) ∧
    (∀ base X : Text, (∀ c ∈ base, urlSafeChar c = true) →
      (∀ c ∈ X, codeSafeChar c = true) → X ≠ [] →
      extract_code_from_url (base ++ "?code=".data ++ X) = some X) ∧
    (∀ (row : Row) (l : Text), row.link = some l → l ≠ [] →
      pyStrip l ≠ [] → "http".data <+: pyStrip l →
      extract_code_from_url (pyStrip l) = none →
      loadRow row = none ∧
        load_row_warning row =
          some ("Warning: Could not extract code from ".data ++ pyStrip l)) := by
  refine ⟨extract_code_eq_find, fun base X hbase hX hne => ?_, ?_⟩
  · rw [extract_code_eq_keyVals_head, urlQuery_of_simple base X hbase hX,
      parse_qsl_single_code X hX hne]
    simp [keyVals]
  · intro row l hl hlne hsne hpre hnone
    constructor
    · simp only [loadRow, hl, if_neg hlne]
      rw [if_neg (by simp [hsne, hpre]), hnone]
    · simp only [load_row_warning, hl, if_neg hlne]
      rw [if_neg (by simp [hsne, hpre]), hnone]

/-- Witness for C6 (amended): `https://c.com/r?code=AB` yields exactly `AB`,
and a code-less URL's row is dropped with a warning. -/
theorem c6_amended_first_code_param_witness :
    extract_code_from_url ("https://c.com/r".data ++ "?code=".data ++ "AB".data) =
      some "AB".data ∧
    loadRow { link := some "https://c.com/r?x=1".data, name := none } = none :=
  ⟨c6_amended_first_code_param.2.1 "https://c.com/r".data "AB".data
      (by decide) (by decide) (by decide),
   (c6_amended_first_code_param.2.2
      { link := some "https://c.com/r?x=1".data, name := none }
      "https://c.com/r?x=1".data rfl (by decide) (by decide) (by decide)
      (by decide)).1⟩

/-- C7: after every run, each outcome's status is one of the four enumerated
values, every loaded record's outcome appears in exactly one partition (the
four partitions concatenated are a permutation of the outcomes of the loaded
records, and each partition holds only its own status), and the total
processed count equals the sum of the four partitions' sizes. -/
theorem c7_partition_invariants (navigate : Text → NavOutcome) (rows : List Row)
    (res : RunResults) (h : run_validation navigate rows = some res) :
    (∀ s : Status, s = .valid ∨ s = .invalid ∨ s = .error ∨ s = .unknown) ∧
    statusCoherent res ∧
    (partsConcat res).Perm ((load_referral_data rows).map (fun d =>
      ({ record := d,
         status := check_referral_status (navigate d.url) } : CheckOutcome))) ∧
    res.valid.length + res.invalid.length + res.error.length +
        res.unknown.length = (load_referral_data rows).length := by
  by_cases hd : load_referral_data rows = []
  · simp [run_validation, hd] at h
  · have hres : (load_referral_data rows).foldl
        (fun results data => addOutcome results
          { record := data,
            status := check_referral_status (navigate data.url) })
        emptyResults = res := by
      simpa [run_validation, hd] using h
    have hperm := partsConcat_foldl navigate (load_referral_data rows) emptyResults
    rw [hres] at hperm
    have hperm' : (partsConcat res).Perm ((load_referral_data rows).map (fun d =>
        ({ record := d,
           status := check_referral_status (navigate d.url) } : CheckOutcome))) := by
      simpa [partsConcat, emptyResults] using hperm
    refine ⟨fun s => by cases s <;> simp, ?_, hperm', ?_⟩
    · rw [← hres]
      exact statusCoherent_foldl navigate (load_referral_data rows) emptyResults
        ⟨by simp [emptyResults], by simp [emptyResults],
         by simp [emptyResults], by simp [emptyResults]⟩
    · have hlen := hperm'.length_eq
      simpa [partsConcat, Nat.add_assoc] using hlen

/-- Witness for C7: a single-row run whose navigation times out yields one
outcome in the error partition and the partition sizes sum to the loaded
count. -/
theorem c7_partition_invariants_witness :
    statusCoherent
      { valid := [], invalid := [],
        error := [{ record := { url := "http://x.com/?code=AB".data,
                                name := "Unknown".data, code := "AB".data },
                    status := .error }],
        unknown := [] } ∧
    ([] : List CheckOutcome).length +
        ([] : List CheckOutcome).length +
        [({ record := { url := "http://x.com/?code=AB".data,
                        name := "Unknown".data, code := "AB".data },
            status := .error } : CheckOutcome)].length +
        ([] : List CheckOutcome).length =
      (load_referral_data
        [{ link := some "http://x.com/?code=AB".data, name := none }]).length := by
  have h := c7_partition_invariants (fun _ => NavOutcome.timeout)
    [{ link := some "http://x.com/?code=AB".data, name := none }]
    { valid := [], invalid := [],
      error := [{ record := { url := "http://x.com/?code=AB".data,
                              name := "Unknown".data, code := "AB".data },
                  status := .error }],
      unknown := [] }
    (by decide)
  exact ⟨h.2.1, h.2.2.2⟩

/-- C9: on every run the report file is overwritten, not appended — the file's
contents after a run are exactly this run's header banner, total-checked
count, and (when there are valid results) valid-code listing, independent of
the file's previous contents; with no valid results the listing is absent. -/
theorem c9_report_overwritten (prev prev' : Text)
    (valid_codes : List CheckOutcome) (total : Nat) :
    report_file_after_run prev valid_codes total = save_results valid_codes total ∧
    report_file_after_run prev valid_codes total =
      report_file_after_run prev' valid_codes total ∧
    report_file_after_run prev valid_codes total =
      report_banner ++ report_total_line total ++ report_valid_listing valid_codes ∧
    (valid_codes = [] →
      report_file_after_run prev valid_codes total =
        report_banner ++ report_total_line total) := by
  refine ⟨rfl, rfl, rfl, fun h => ?_⟩
  simp [report_file_after_run, writeContents, save_results,
    report_valid_listing, h]

/-- Witness for C9: with no valid codes the report is exactly the banner and
the total line, whatever the file held before. -/
theorem c9_report_overwritten_witness :
    report_file_after_run "stale text from an earlier run".data [] 3 =
      report_banner ++ report_total_line 3 :=
  (c9_report_overwritten "stale text from an earlier run".data [] [] 3).2.2.2 rfl

end CreditChecker
